import Mathlib

/-!
Verification development for the HireNetAI backend (FastAPI + MongoDB video
interview platform).  The Python services are shallowly embedded: Python
floats become exact rationals (`ℚ`), Python `round(x, n)` becomes
round-half-even at `n` decimal places, dictionaries become association
lists, fallible code returns `Except`, and external effects (WhisperX,
DeepFace, OpenAI, ffmpeg, MongoDB) are passed in as explicit inputs or
environment records.

Layout: all definitions first (the embedding of the source, followed by
spec-side reference definitions), then the lemmas and the theorems that
settle each claim.
-/

namespace HireNetAI

/-! ### Rounding (Python `round`, banker's rounding) -/

/-- Round a rational to the nearest integer, ties to even
(the semantics of Python's built-in `round` on exact values). -/
def roundHalfEven (q : ℚ) : ℤ :=
  if q - ⌊q⌋ < 1/2 then ⌊q⌋
  else if 1/2 < q - ⌊q⌋ then ⌊q⌋ + 1
  else if ⌊q⌋ % 2 = 0 then ⌊q⌋ else ⌊q⌋ + 1

/-- Python `round(q, 2)`. -/
def round2 (q : ℚ) : ℚ := (roundHalfEven (q * 100) : ℚ) / 100

/-- Python `round(q, 3)`. -/
def round3 (q : ℚ) : ℚ := (roundHalfEven (q * 1000) : ℚ) / 1000

/-! ### Data model (`models/interview.py`) -/

/-- Embedding of `LLMEvaluation` (pydantic model).  Python field defaults kept. -/
structure LLMEvaluation where
  clarity_score : ℤ := 0
  confidence_score : ℤ := 0
  logic_score : ℤ := 0
  relevance_score : ℤ := 0
  communication_level : String := "Low"
  personality_traits : List (String × ℤ) := []
  strengths : List String := []
  weaknesses : List String := []
  overall_score : ℤ := 0
  final_verdict : String := "Not Recommended"
  reasoning : String := ""
deriving Repr, DecidableEq

/-- Embedding of a WhisperX word record (`word`, `start`, `end`, `score`).
`end` is a Lean keyword, so the field is called `end_`. -/
structure WordTimestamp where
  word : String
  start : ℚ
  end_ : ℚ
  score : ℚ := 1
deriving Repr, DecidableEq

/-- Embedding of the long-pause dict built in `whisper_service._transcribe_sync`. -/
structure Pause where
  after_word : String
  before_word : String
  duration : ℚ
  at_time : ℚ
deriving Repr, DecidableEq

/-- Embedding of one successfully analysed frame (a `frame_emotions` entry).
The DeepFace per-emotion scores are an association list, as the Python dict. -/
structure FrameAnalysis where
  timestamp : ℚ
  dominant_emotion : String
  emotion_scores : List (String × ℚ)
deriving Repr, DecidableEq

/-- Embedding of the per-answer record `Answer` (pydantic model).
`created_at` (wall-clock time) is external and omitted. -/
structure Answer where
  question_id : String
  question_text : String
  video_path : Option String := none
  audio_path : Option String := none
  transcript : Option String := none
  word_timestamps : List WordTimestamp := []
  frame_emotions : List FrameAnalysis := []
  emotion_distribution : List (String × ℚ) := []
  confidence_index : ℚ := 0
  nervousness_score : ℚ := 0
  pause_count : ℕ := 0
  long_pauses : List Pause := []
  hesitation_score : ℚ := 0
  llm_evaluation : Option LLMEvaluation := none
  answer_final_score : ℚ := 0
  processed : Bool := false
deriving Repr, DecidableEq

/-! ### Scoring service (`services/scoring_service.py`) -/

/-- Embedding of `_communication_score_from_level`:
`mapping.get(level, 5.0)` over High/Medium/Low. -/
def communication_score_from_level (level : String) : ℚ :=
  if level = "High" then 10
  else if level = "Medium" then 6
  else if level = "Low" then 2
  else 5

/-- Embedding of `score_single_answer`: weighted per-answer score. -/
def score_single_answer (a : Answer) : ℚ :=
  let llm_score : ℚ :=
    match a.llm_evaluation with
    | some e => (e.overall_score : ℚ)
    | none => 0
  let llm_component := llm_score * (40/100)
  let emotion_component := a.confidence_index * (20/100)
  let comm_level : String :=
    match a.llm_evaluation with
    | some e => e.communication_level
    | none => "Low"
  let comm_component := communication_score_from_level comm_level * (20/100)
  let hesitation_inverted := max 0 (10 - a.hesitation_score)
  let hesitation_component := hesitation_inverted * (20/100)
  round2 (min (llm_component + emotion_component + comm_component + hesitation_component) 10)

/-- Embedding of `aggregate_session_score`: mean of the per-answer final
scores together with the category string. -/
def aggregate_session_score (answers : List Answer) : ℚ × String :=
  if answers = [] then (0, "Not Recommended")
  else
    let total := (answers.map (fun a => a.answer_final_score)).sum
    let final_score := round2 (total / answers.length)
    let category :=
      if 8 ≤ final_score then "Highly Recommended"
      else if 6 ≤ final_score then "Recommended"
      else if 4 ≤ final_score then "Average"
      else "Not Recommended"
    (final_score, category)

/-! ### Whisper service (`services/whisper_service.py`, steps 3-4)

The acoustic model itself is external; the embedded part is the pure
post-processing of the aligned word list: long-pause detection and the
hesitation score. -/

/-- The 2-second long-pause threshold (`LONG_PAUSE_THRESHOLD`). -/
def LONG_PAUSE_THRESHOLD : ℚ := 2

/-- The pause record appended for an adjacent word pair whose gap exceeds
the threshold. -/
def mkPause (w1 w2 : WordTimestamp) : Pause :=
  { after_word := w1.word
    before_word := w2.word
    duration := round3 (w2.start - w1.end_)
    at_time := w1.end_ }

/-- Embedding of the pause-detection loop
(`for i in range(1, len(words)) ...` in `_transcribe_sync`). -/
def detect_pauses : List WordTimestamp → List Pause
  | w1 :: w2 :: rest =>
      (if LONG_PAUSE_THRESHOLD < w2.start - w1.end_ then [mkPause w1 w2] else []) ++
        detect_pauses (w2 :: rest)
  | _ => []

/-- Embedding of the hesitation score:
`round(min(len(pauses) * 1.5, 10.0), 2)`. -/
def hesitation_score_of (words : List WordTimestamp) : ℚ :=
  round2 (min (((detect_pauses words).length : ℚ) * (3/2)) 10)

/-- Result record of `_transcribe_sync` (keys of the returned dict). -/
structure WhisperResult where
  transcript : String
  words : List WordTimestamp
  pauses : List Pause
  hesitation_score : ℚ
  language : String := "en"
deriving Repr, DecidableEq

/-- The dict `_transcribe_sync` returns, given the externally produced
transcript and aligned word list. -/
def transcribe_result (transcript : String) (words : List WordTimestamp)
    (language : String) : WhisperResult :=
  { transcript := transcript
    words := words
    pauses := detect_pauses words
    hesitation_score := hesitation_score_of words
    language := language }

/-! ### Emotion service (`services/emotion_service.py`)

Frame grabbing and DeepFace inference are external; each input frame is
either `none` (DeepFace raised, frame skipped silently) or the analysis
result.  The embedded part is the accumulation and the distribution maths
of `_analyze_frames_sync`. -/

/-- Embedding of `emotion_totals[emo] = emotion_totals.get(emo, 0.0) + score`
on an insertion-ordered dict. -/
def add_total : List (String × ℚ) → String → ℚ → List (String × ℚ)
  | [], emo, s => [(emo, s)]
  | (k, v) :: rest, emo, s =>
      if k = emo then (k, v + s) :: rest else (k, v) :: add_total rest emo s

/-- Totals accumulated over all successfully analysed frames, in loop order. -/
def accumulate_totals (frames : List FrameAnalysis) : List (String × ℚ) :=
  frames.foldl (fun m f => f.emotion_scores.foldl (fun m2 p => add_total m2 p.1 p.2) m) []

/-- Python `d.get(k, 0)` on the embedded dict. -/
def dget (m : List (String × ℚ)) (k : String) : ℚ := (List.lookup k m).getD 0

/-- Result record of `_analyze_frames_sync` (keys of the returned dict). -/
structure EmotionResult where
  frame_emotions : List FrameAnalysis
  emotion_distribution : List (String × ℚ)
  confidence_index : ℚ
  nervousness_score : ℚ
deriving Repr, DecidableEq

/-- The percentage distribution derived from the accumulated totals:
`round((score / total_weight) * 100, 2)` per emotion. -/
def emotion_distribution_of (totals : List (String × ℚ)) : List (String × ℚ) :=
  let total_weight := (totals.map Prod.snd).sum
  totals.map fun p => (p.1, round2 (p.2 / total_weight * 100))

/-- `round(min(positive / 100 * 10, 10), 2)` with
`positive = distribution.get("happy", 0) + distribution.get("neutral", 0)`. -/
def confidence_index_of (distribution : List (String × ℚ)) : ℚ :=
  round2 (min ((dget distribution "happy" + dget distribution "neutral") / 100 * 10) 10)

/-- `round(min(negative / 100 * 10, 10), 2)` with
`negative = fear + sad + angry` from the distribution. -/
def nervousness_score_of (distribution : List (String × ℚ)) : ℚ :=
  round2 (min ((dget distribution "fear" + dget distribution "sad" +
    dget distribution "angry") / 100 * 10) 10)

/-- Embedding of `_analyze_frames_sync`: accumulate per-emotion totals over
the successfully analysed frames, then derive the percentage distribution,
the confidence index and the nervousness score. -/
def analyze_frames (frames : List (Option FrameAnalysis)) : EmotionResult :=
  let frame_emotions :=
    (frames.filterMap id).map fun f =>
      { f with emotion_scores := f.emotion_scores.map fun p => (p.1, round2 p.2) }
  if frame_emotions = [] then
    { frame_emotions := []
      emotion_distribution := []
      confidence_index := 0
      nervousness_score := 0 }
  else
    let emotion_totals := accumulate_totals (frames.filterMap id)
    let distribution := emotion_distribution_of emotion_totals
    { frame_emotions := frame_emotions
      emotion_distribution := distribution
      confidence_index := confidence_index_of distribution
      nervousness_score := nervousness_score_of distribution }

/-! ### LLM service (`services/llm_service.py`)

The chat completion request (plus JSON extraction) is external and enters
as an `Except`: `Except.ok e` when the call returned and parsed into an
`LLMEvaluation`, `Except.error msg` when anything in the `try` block
raised with message `msg`. -/

/-- The deterministic lowest-score evaluation returned for an
empty/whitespace transcript. -/
def lowest_evaluation : LLMEvaluation :=
  { clarity_score := 0
    confidence_score := 0
    logic_score := 0
    relevance_score := 0
    communication_level := "Low"
    personality_traits :=
      [("leadership", 0), ("emotional_stability", 0), ("honesty", 0), ("confidence", 0)]
    strengths := []
    weaknesses := ["No spoken content detected"]
    overall_score := 0
    final_verdict := "Not Recommended"
    reasoning := "The candidate did not provide a spoken answer." }

/-- The neutral mid-range fallback evaluation returned when the external
call raised with message `exc`. -/
def fallback_evaluation (exc : String) : LLMEvaluation :=
  { clarity_score := 5
    confidence_score := 5
    logic_score := 5
    relevance_score := 5
    communication_level := "Medium"
    personality_traits :=
      [("leadership", 5), ("emotional_stability", 5), ("honesty", 5), ("confidence", 5)]
    strengths := ["Unable to evaluate (LLM error)"]
    weaknesses := []
    overall_score := 5
    final_verdict := "Average"
    reasoning := "LLM evaluation unavailable: " ++ exc.take 200 }

/-- A string is blank when every character is whitespace; Python's
`not transcript.strip()` is true exactly for blank strings. -/
def is_blank (s : String) : Bool := s.data.all fun c => c.isWhitespace

/-- Embedding of `evaluate_answer`.  `external_call` is the outcome of the
external evaluator (request + JSON extraction + model validation). -/
def evaluate_answer (question transcript : String)
    (external_call : Except String LLMEvaluation) : LLMEvaluation :=
  if transcript = "" ∨ is_blank transcript = true then lowest_evaluation
  else
    match external_call with
    | Except.ok e => e
    | Except.error exc => fallback_evaluation exc

/-! ### Upload router and session lifecycle
(`routers/upload.py`, `services/video_processor.py:finalize_session`) -/

/-- Session status values (`in_progress | processing | completed`). -/
inductive SessionStatus
  | in_progress
  | processing
  | completed
deriving Repr, DecidableEq

/-- Embedding of the session document fields the claims touch. -/
structure SessionDoc where
  candidate_id : String
  answers : List Answer
  status : SessionStatus
  final_score : ℚ := 0
  category : String := "Not Recommended"
deriving Repr, DecidableEq

/-- HTTP errors `upload_answer` can raise. -/
inductive UploadError
  | session_not_found
  | forbidden
deriving Repr, DecidableEq

/-- The Answer stub inserted on upload (analysis fields at their defaults,
`processed=False`). -/
def answer_stub (question_id question_text video_path : String) : Answer :=
  { question_id := question_id
    question_text := question_text
    video_path := some video_path
    processed := false }

/-- Embedding of the `upload_answer` handler.  `session` is the result of
the `find_one` lookup; on success it returns the updated session document
together with the list of background orchestrations scheduled by this call
(identified by question id). -/
def upload_answer (current_user_sub : String) (session : Option SessionDoc)
    (question_id question_text video_path : String) :
    Except UploadError (SessionDoc × List String) :=
  match session with
  | none => Except.error UploadError.session_not_found
  | some s =>
      if s.candidate_id ≠ current_user_sub then Except.error UploadError.forbidden
      else
        Except.ok
          ({ s with
              answers := s.answers ++ [answer_stub question_id question_text video_path]
              status := SessionStatus.processing },
            [question_id])

/-- Embedding of `finalize_session`: aggregate the answers and mark the
session completed (no-op when the session lookup fails). -/
def finalize_session : Option SessionDoc → Option SessionDoc
  | none => none
  | some s =>
      let agg := aggregate_session_score s.answers
      some { s with
              final_score := agg.1
              category := agg.2
              status := SessionStatus.completed }

/-- Session-level operations that can change the status field.  An upload
carries the authenticated caller (`current_user.sub`). -/
inductive SessionOp
  | upload (sub question_id question_text video_path : String)
  | finalize
deriving Repr, DecidableEq

/-- One session-state transition: an upload attempt through `upload_answer`
(a rejected upload leaves the document unchanged), or a finalization. -/
def session_step (op : SessionOp) (s : SessionDoc) : SessionDoc :=
  match op with
  | SessionOp.upload sub qid qtext vpath =>
      match upload_answer sub (some s) qid qtext vpath with
      | Except.ok (s2, _) => s2
      | Except.error _ => s
  | SessionOp.finalize =>
      match finalize_session (some s) with
      | some s2 => s2
      | none => s

/-- Forward order of the session lifecycle. -/
def statusRank : SessionStatus → ℕ
  | SessionStatus.in_progress => 0
  | SessionStatus.processing => 1
  | SessionStatus.completed => 2

/-! ### Orchestrator (`services/video_processor.py:process_video`)

The per-stage external effects enter through an environment record; each
stage is the `Except` outcome of its external work.  The LLM stage uses the
embedded `evaluate_answer`, which never fails. -/

/-- Outcomes of the external stages of one pipeline run. -/
structure PipelineEnv where
  extract_audio : Except String Unit
  transcribe : Except String WhisperResult
  analyze_emotions : Except String EmotionResult
  llm_external : Except String LLMEvaluation
deriving Repr

/-- The values accumulated in `update_fields` by a fully successful run. -/
structure StageOutputs where
  whisper : WhisperResult
  emotion : EmotionResult
  llm_eval : LLMEvaluation
  answer_score : ℚ
deriving Repr, DecidableEq



/-- The temporary `Answer` object built in Step E to run the scorer. -/
def temp_answer (question_id question_text : String) (w : WhisperResult)
    (e : EmotionResult) (llm : LLMEvaluation) : Answer :=
  { question_id := question_id
    question_text := question_text
    confidence_index := e.confidence_index
    hesitation_score := w.hesitation_score
    llm_evaluation := some llm }

/-- The `try` block of `process_video`: stages A-E in order, short-circuiting
on the first raised exception. -/
def run_stages (question_id question_text : String) (env : PipelineEnv) :
    Except String StageOutputs :=
  match env.extract_audio with
  | Except.error e => Except.error e
  | Except.ok _ =>
      match env.transcribe with
      | Except.error e => Except.error e
      | Except.ok w =>
          match env.analyze_emotions with
          | Except.error e => Except.error e
          | Except.ok em =>
              let llm := evaluate_answer question_text w.transcript env.llm_external
              let score := score_single_answer (temp_answer question_id question_text w em llm)
              Except.ok { whisper := w, emotion := em, llm_eval := llm, answer_score := score }

/-- Python's `str(exc)[:200]`: the first 200 characters. -/
def take200 (s : String) : String := String.mk (s.data.take 200)

/-- The diagnostic transcript marker written by the `except` handler:
`f"[ERROR: str(exc)[:200]]"`. -/
def error_marker (msg : String) : String := "[ERROR: " ++ (take200 msg ++ "]")

/-- The single `$set` update executed at the end of a successful run. -/
def apply_success (doc : Answer) (audio_path : String) (o : StageOutputs) : Answer :=
  { doc with
      audio_path := some audio_path
      transcript := some o.whisper.transcript
      word_timestamps := o.whisper.words
      pause_count := o.whisper.pauses.length
      long_pauses := o.whisper.pauses
      hesitation_score := o.whisper.hesitation_score
      frame_emotions := o.emotion.frame_emotions
      emotion_distribution := o.emotion.emotion_distribution
      confidence_index := o.emotion.confidence_index
      nervousness_score := o.emotion.nervousness_score
      llm_evaluation := some o.llm_eval
      answer_final_score := o.answer_score
      processed := true }

/-- Embedding of `process_video` acting on the matched answer sub-document:
run the stages; on success apply the single accumulated update, on any
exception apply the error update.  Its (non-`Except`) result type records
that no exception escapes the orchestrator. -/
def process_video (question_id question_text audio_path : String)
    (env : PipelineEnv) (doc : Answer) : Answer :=
  match run_stages question_id question_text env with
  | Except.ok o => apply_success doc audio_path o
  | Except.error msg =>
      { doc with processed := true, transcript := some (error_marker msg) }

/-! ### Spec-side reference definitions

These follow the wording of the specification (not the source) and exist
only to be compared with the embedded code above. -/

/-- Spec wording of `scoreAnswer` (claim C2): weighted sum with the
communication score defaulting to 5 when the level is absent, hesitation
inverted as `10 − hesitationScore`, clamped to 10 and rounded. -/
def scoreAnswer_claimed (a : Answer) : ℚ :=
  let llm_overall : ℚ :=
    match a.llm_evaluation with
    | some e => (e.overall_score : ℚ)
    | none => 0
  let comm : ℚ :=
    match a.llm_evaluation with
    | some e =>
        if e.communication_level = "High" then 10
        else if e.communication_level = "Medium" then 6
        else if e.communication_level = "Low" then 2
        else 5
    | none => 5
  round2 (min (llm_overall * (40/100) + a.confidence_index * (20/100) +
    comm * (20/100) + (10 - a.hesitation_score) * (20/100)) 10)

/-- Amended wording of `scoreAnswer` (claim C2): a missing LLM evaluation
is treated as communication level Low (comm = 2), and the inverted
hesitation term is floored at 0. -/
def scoreAnswer_amended (a : Answer) : ℚ :=
  let llm_overall : ℚ :=
    match a.llm_evaluation with
    | some e => (e.overall_score : ℚ)
    | none => 0
  let comm : ℚ :=
    match a.llm_evaluation with
    | some e =>
        if e.communication_level = "High" then 10
        else if e.communication_level = "Medium" then 6
        else if e.communication_level = "Low" then 2
        else 5
    | none => 2
  round2 (min (llm_overall * (40/100) + a.confidence_index * (20/100) +
    comm * (20/100) + max 0 (10 - a.hesitation_score) * (20/100)) 10)

/-- Spec wording of `aggregateSession` (claim C3): mean of the answers'
final scores rounded to 2 decimals, with the inclusive category thresholds;
the empty list yields `(0.0, "Not Recommended")`. -/
def aggregateSession_spec (answers : List Answer) : ℚ × String :=
  match answers with
  | [] => (0, "Not Recommended")
  | _ =>
      let mean := round2 ((answers.map fun a => a.answer_final_score).sum / answers.length)
      let category :=
        if 8 ≤ mean then "Highly Recommended"
        else if 6 ≤ mean then "Recommended"
        else if 4 ≤ mean then "Average"
        else "Not Recommended"
      (mean, category)

/-- Spec wording of the pause list (claim C7): the adjacent word pairs, in
time order, whose gap (next start minus previous end) strictly exceeds the
2-second threshold. -/
def longGapPairs (words : List WordTimestamp) : List (WordTimestamp × WordTimestamp) :=
  (words.zip words.tail).filter fun p => LONG_PAUSE_THRESHOLD < p.2.start - p.1.end_

/-! ### Concrete fixtures used by counterexamples and witnesses -/

/-- A session that already holds an answer for question "q1", owned by
candidate "cand". -/
def dup_session : SessionDoc :=
  { candidate_id := "cand"
    answers := [answer_stub "q1" "t1" "uploads/s/q1.webm"]
    status := SessionStatus.processing }

/-- A completed session owned by candidate "cand". -/
def completed_session : SessionDoc :=
  { candidate_id := "cand"
    answers := []
    status := SessionStatus.completed }

/-- A whisper result with a non-empty transcript and one aligned word,
used as the successful outcome of the transcription stage. -/
def some_whisper : WhisperResult :=
  { transcript := "hello world"
    words := [{ word := "hello", start := 0, end_ := 1 }]
    pauses := []
    hesitation_score := 0 }

/-- A pipeline environment in which audio extraction and transcription
succeed and the emotion stage raises. -/
def env_fail_emotion : PipelineEnv :=
  { extract_audio := Except.ok ()
    transcribe := Except.ok some_whisper
    analyze_emotions := Except.error "DeepFace crashed"
    llm_external := Except.error "not reached" }

/-- A freshly inserted answer stub (no analysis fields populated). -/
def fresh_stub : Answer := answer_stub "q1" "t" "uploads/s/q1.webm"

/-- A one-frame emotion analysis whose distribution has a value with a
third decimal digit after the percentage step. -/
def frames_c8 : List (Option FrameAnalysis) :=
  [some { timestamp := 0
          dominant_emotion := "happy"
          emotion_scores := [("happy", 1234), ("angry", 8766)] }]

/-! ## Lemmas about the rounding model -/

theorem roundHalfEven_le (q : ℚ) : (roundHalfEven q : ℚ) ≤ q + 1/2 := by
  have hfl : (⌊q⌋ : ℚ) ≤ q := Int.floor_le q
  have hfl2 : q < (⌊q⌋ : ℚ) + 1 := Int.lt_floor_add_one q
  unfold roundHalfEven
  split_ifs <;> push_cast <;> linarith

theorem le_roundHalfEven (q : ℚ) : q - 1/2 ≤ (roundHalfEven q : ℚ) := by
  have hfl : (⌊q⌋ : ℚ) ≤ q := Int.floor_le q
  have hfl2 : q < (⌊q⌋ : ℚ) + 1 := Int.lt_floor_add_one q
  unfold roundHalfEven
  split_ifs <;> push_cast <;> linarith

theorem roundHalfEven_intCast (n : ℤ) : roundHalfEven (n : ℚ) = n := by
  unfold roundHalfEven
  simp [Int.floor_intCast]

theorem round2_abs_sub_le (q : ℚ) : |round2 q - q| ≤ 1/200 := by
  have h1 := roundHalfEven_le (q * 100)
  have h2 := le_roundHalfEven (q * 100)
  rw [abs_sub_le_iff]
  unfold round2
  constructor <;> [linarith; linarith]

theorem round2_nonneg {q : ℚ} (h : 0 ≤ q) : 0 ≤ round2 q := by
  have h2 := le_roundHalfEven (q * 100)
  have hz : (0 : ℚ) ≤ (roundHalfEven (q * 100) : ℚ) := by
    by_contra hc
    push_neg at hc
    have hlt : roundHalfEven (q * 100) < 0 := by exact_mod_cast hc
    have hle : roundHalfEven (q * 100) ≤ -1 := by omega
    have hq : ((roundHalfEven (q * 100) : ℤ) : ℚ) ≤ ((-1 : ℤ) : ℚ) := by exact_mod_cast hle
    push_cast at hq
    linarith
  unfold round2
  positivity

theorem round2_le_of_le {q b : ℚ} (hb : ∃ n : ℤ, b * 100 = n) (h : q ≤ b) :
    round2 q ≤ b := by
  obtain ⟨n, hn⟩ := hb
  have h1 := roundHalfEven_le (q * 100)
  have hlt : (roundHalfEven (q * 100) : ℚ) < n + 1 := by
    rw [← hn]; linarith
  have hle : roundHalfEven (q * 100) ≤ n := by
    have hq : (roundHalfEven (q * 100) : ℚ) < ((n + 1 : ℤ) : ℚ) := by push_cast; linarith
    have hz : roundHalfEven (q * 100) < n + 1 := by exact_mod_cast hq
    omega
  have hcast : (roundHalfEven (q * 100) : ℚ) ≤ (n : ℚ) := by exact_mod_cast hle
  unfold round2
  rw [← hn] at hcast
  linarith

theorem round2_of_int_mul (q : ℚ) (n : ℤ) (h : q * 100 = n) : round2 q = q := by
  unfold round2
  rw [h, roundHalfEven_intCast, ← h]
  field_simp

/-! ## Claim C2 — `score_single_answer` -/

/-- C2, counterexample: the claim says the communication score defaults to 5
when the level is absent, but on an answer with no LLM evaluation the code
hardcodes level "Low" (comm = 2): the code returns 2.4 while the claimed
formula gives 3.0. -/
theorem score_single_answer_missing_llm_counterexample :
    score_single_answer { question_id := "q", question_text := "t" } = 12/5 ∧
    scoreAnswer_claimed { question_id := "q", question_text := "t" } = 3 ∧
    score_single_answer { question_id := "q", question_text := "t" } ≠
      scoreAnswer_claimed { question_id := "q", question_text := "t" } := by
  refine ⟨?_, ?_, ?_⟩
  · simp [score_single_answer, communication_score_from_level]
    norm_num [round2, roundHalfEven]
  · simp [scoreAnswer_claimed]
    norm_num [round2, roundHalfEven]
  · simp [score_single_answer, scoreAnswer_claimed, communication_score_from_level]
    norm_num [round2, roundHalfEven]

/-- C2 (amended): `score_single_answer` equals the claimed weighted formula
with two changes forced by the code — a missing LLM evaluation is treated
as communication level Low (comm = 2, not 5), and the inverted hesitation
term is `max(0, 10 − hesitationScore)`. -/
theorem score_single_answer_closed_form (a : Answer) :
    score_single_answer a = scoreAnswer_amended a := by
  unfold score_single_answer scoreAnswer_amended communication_score_from_level
  cases a.llm_evaluation <;> simp

/-! ## Claim C3 — `aggregate_session_score` -/

/-- C3: `aggregate_session_score` is the rounded arithmetic mean of the
answers' final scores with the inclusive thresholds 8/6/4, the empty list
yields `(0.0, "Not Recommended")`, and the three worked examples of the
spec hold. -/
theorem aggregate_session_score_spec_conformance :
    (∀ answers : List Answer, aggregate_session_score answers = aggregateSession_spec answers) ∧
    aggregate_session_score [] = (0, "Not Recommended") ∧
    aggregate_session_score
      [{ question_id := "a", question_text := "x", answer_final_score := 9 },
       { question_id := "b", question_text := "y", answer_final_score := 9 }] =
      (9, "Highly Recommended") ∧
    aggregate_session_score
      [{ question_id := "a", question_text := "x", answer_final_score := 7 },
       { question_id := "b", question_text := "y", answer_final_score := 5 }] =
      (6, "Recommended") ∧
    aggregate_session_score
      [{ question_id := "a", question_text := "x", answer_final_score := 3 },
       { question_id := "b", question_text := "y", answer_final_score := 3 }] =
      (3, "Not Recommended") := by
  refine ⟨?_, rfl, ?_, ?_, ?_⟩
  · intro answers
    cases answers with
    | nil => rfl
    | cons a as => rfl
  · rw [aggregate_session_score, if_neg (by simp)]
    norm_num [round2, roundHalfEven]
  · rw [aggregate_session_score, if_neg (by simp)]
    norm_num [round2, roundHalfEven]
  · rw [aggregate_session_score, if_neg (by simp)]
    norm_num [round2, roundHalfEven]

/-! ## Claim C1 — duplicate submissions at the upload handler -/

/-- C1, counterexample: the handler has no duplicate check.  With an answer
for `q1` already present, a second upload for `q1` by the owner is accepted
(not rejected), a second stub for `q1` is appended, and a second
orchestration is scheduled. -/
theorem upload_answer_duplicate_not_rejected :
    (dup_session.answers.map fun a => a.question_id) = ["q1"] ∧
    upload_answer "cand" (some dup_session) "q1" "t1" "uploads/s/q1.webm" =
      Except.ok
        ({ dup_session with
            answers := dup_session.answers ++ [answer_stub "q1" "t1" "uploads/s/q1.webm"]
            status := SessionStatus.processing },
          ["q1"]) ∧
    ((upload_answer "cand" (some dup_session) "q1" "t1" "uploads/s/q1.webm").toOption.map
        fun r => r.1.answers.map fun a => a.question_id) = some ["q1", "q1"] := by
  refine ⟨rfl, rfl, rfl⟩

/-- C1 (amended): `upload_answer` rejects exactly when the session does not
exist or the caller does not own it; an already-present answer for the same
question is not checked — the submission is accepted, a second stub is
appended and a second orchestration is scheduled. -/
theorem upload_answer_rejects_iff (sub : String) (session : Option SessionDoc)
    (qid qtext vpath : String) :
    (session = none →
      upload_answer sub session qid qtext vpath =
        Except.error UploadError.session_not_found) ∧
    (∀ s, session = some s → s.candidate_id ≠ sub →
      upload_answer sub session qid qtext vpath = Except.error UploadError.forbidden) ∧
    (∀ s, session = some s → s.candidate_id = sub →
      upload_answer sub session qid qtext vpath =
        Except.ok
          ({ s with
              answers := s.answers ++ [answer_stub qid qtext vpath]
              status := SessionStatus.processing },
            [qid])) := by
  refine ⟨?_, ?_, ?_⟩
  · rintro rfl
    rfl
  · rintro s rfl hforeign
    simp [upload_answer, hforeign]
  · rintro s rfl hown
    simp [upload_answer, hown]

/-- C1 amended-claim witness: the rejection branch at a concrete input. -/
theorem upload_answer_rejects_iff_witness :
    upload_answer "cand" none "q1" "t1" "p" = Except.error UploadError.session_not_found :=
  (upload_answer_rejects_iff "cand" none "q1" "t1" "p").1 rfl

/-! ## Claim C9 — monotonicity of the session status -/

/-- C9, counterexample: an accepted upload sets the status to `processing`
unconditionally, so a completed session moves backward to `processing`. -/
theorem session_status_backward_counterexample :
    completed_session.status = SessionStatus.completed ∧
    (session_step (SessionOp.upload "cand" "q9" "t" "p") completed_session).status =
      SessionStatus.processing ∧
    statusRank
        (session_step (SessionOp.upload "cand" "q9" "t" "p") completed_session).status <
      statusRank completed_session.status := by
  refine ⟨rfl, rfl, ?_⟩
  show (1 : ℕ) < 2
  norm_num

/-- C9 (amended): every session-step keeps the status rank non-decreasing,
except that an accepted upload on a completed session moves it back to
`processing` — the only backward transition. -/
theorem session_status_forward_except_completed_upload (s : SessionDoc) (op : SessionOp) :
    statusRank s.status ≤ statusRank (session_step op s).status ∨
      (s.status = SessionStatus.completed ∧
        (session_step op s).status = SessionStatus.processing) := by
  cases op with
  | upload sub qid qtext vpath =>
      by_cases hsub : s.candidate_id ≠ sub
      · left
        simp [session_step, upload_answer, hsub]
      · push_neg at hsub
        have hstep : (session_step (SessionOp.upload sub qid qtext vpath) s).status =
            SessionStatus.processing := by
          simp [session_step, upload_answer, hsub]
        rw [hstep]
        cases hst : s.status
        · left; simp [statusRank]
        · left; simp [statusRank]
        · right; exact ⟨rfl, rfl⟩
  | finalize =>
      left
      cases hst : s.status <;>
        simp [session_step, finalize_session, statusRank, hst]

/-! ## Claim C6 — `evaluate_answer` never fails -/

/-- C6: `evaluate_answer` is total.  A whitespace-only transcript skips the
external call (the result does not depend on it) and yields the
deterministic lowest-score evaluation; a non-blank transcript returns the
external result on success and the neutral fallback on failure; and the two
synthesized evaluations have the stated fields. -/
theorem evaluate_answer_total_spec (q t : String) (ext : Except String LLMEvaluation) :
    (is_blank t = true → ∀ ext2 : Except String LLMEvaluation,
        evaluate_answer q t ext = lowest_evaluation ∧
        evaluate_answer q t ext = evaluate_answer q t ext2) ∧
    (is_blank t ≠ true → ∀ e, ext = Except.ok e → evaluate_answer q t ext = e) ∧
    (is_blank t ≠ true → ∀ msg, ext = Except.error msg →
        evaluate_answer q t ext = fallback_evaluation msg) ∧
    (lowest_evaluation.clarity_score = 0 ∧ lowest_evaluation.confidence_score = 0 ∧
      lowest_evaluation.logic_score = 0 ∧ lowest_evaluation.relevance_score = 0 ∧
      lowest_evaluation.overall_score = 0 ∧
      lowest_evaluation.final_verdict = "Not Recommended" ∧
      lowest_evaluation.weaknesses = ["No spoken content detected"]) ∧
    (∀ msg : String,
      (fallback_evaluation msg).clarity_score = 5 ∧
      (fallback_evaluation msg).confidence_score = 5 ∧
      (fallback_evaluation msg).logic_score = 5 ∧
      (fallback_evaluation msg).relevance_score = 5 ∧
      (fallback_evaluation msg).overall_score = 5 ∧
      (fallback_evaluation msg).final_verdict = "Average" ∧
      (fallback_evaluation msg).reasoning = "LLM evaluation unavailable: " ++ msg.take 200) := by
  have hblank : is_blank t = true → (t = "" ∨ is_blank t = true) := fun h => Or.inr h
  have hnotblank : is_blank t ≠ true → ¬(t = "" ∨ is_blank t = true) := by
    intro h hc
    cases hc with
    | inl he => exact h (by rw [he]; rfl)
    | inr he => exact h he
  refine ⟨?_, ?_, ?_, ⟨rfl, rfl, rfl, rfl, rfl, rfl, rfl⟩, fun msg => ⟨rfl, rfl, rfl, rfl, rfl, rfl, rfl⟩⟩
  · intro h ext2
    constructor
    · unfold evaluate_answer
      rw [if_pos (hblank h)]
    · unfold evaluate_answer
      rw [if_pos (hblank h), if_pos (hblank h)]
  · intro h e he
    unfold evaluate_answer
    rw [if_neg (hnotblank h), he]
  · intro h msg he
    unfold evaluate_answer
    rw [if_neg (hnotblank h), he]

/-- C6 witness: a whitespace-only transcript with a failing external call
still produces the lowest-score evaluation. -/
theorem evaluate_answer_total_spec_witness :
    evaluate_answer "Q" "   " (Except.error "boom") = lowest_evaluation :=
  ((evaluate_answer_total_spec "Q" "   " (Except.error "boom")).1 (by decide)
    (Except.ok lowest_evaluation)).1

/-! ## Claim C7 — pause detection and hesitation score -/

theorem detect_pauses_eq_map (words : List WordTimestamp) :
    detect_pauses words = (longGapPairs words).map fun p => mkPause p.1 p.2 := by
  induction words with
  | nil => rfl
  | cons w1 rest ih =>
      cases rest with
      | nil => rfl
      | cons w2 rest2 =>
          show (if LONG_PAUSE_THRESHOLD < w2.start - w1.end_ then [mkPause w1 w2] else []) ++
              detect_pauses (w2 :: rest2) = _
          rw [ih]
          unfold longGapPairs
          simp only [List.tail_cons, List.zip_cons_cons, List.filter_cons]
          by_cases h : LONG_PAUSE_THRESHOLD < w2.start - w1.end_
          · simp [h]
          · simp [h]

theorem round2_min_halfint (k : ℕ) :
    round2 (min ((k : ℚ) * (3/2)) 10) = min ((k : ℚ) * (3/2)) 10 := by
  apply round2_of_int_mul _ (min ((k : ℤ) * 150) 1000)
  rcases le_total ((k : ℚ) * (3/2)) 10 with h | h
  · rw [min_eq_left h, min_eq_left (by exact_mod_cast (by linarith : (k : ℚ) * 150 ≤ 1000))]
    push_cast
    ring
  · rw [min_eq_right h, min_eq_right (by exact_mod_cast (by linarith : (1000 : ℚ) ≤ (k : ℚ) * 150))]
    norm_num

/-- C7: the pause stage records exactly the adjacent word pairs whose gap
strictly exceeds 2.0 s, in time order, as pause records with duration and
surrounding words, and the hesitation score is `min(K × 1.5, 10.0)` where
`K` is the number of such gaps. -/
theorem whisper_pause_detection_spec (words : List WordTimestamp) :
    detect_pauses words = (longGapPairs words).map (fun p => mkPause p.1 p.2) ∧
    (detect_pauses words).length =
      (words.zip words.tail).countP
        (fun p => LONG_PAUSE_THRESHOLD < p.2.start - p.1.end_) ∧
    hesitation_score_of words = min (((longGapPairs words).length : ℚ) * (3/2)) 10 := by
  have hmap := detect_pauses_eq_map words
  have hlen : (detect_pauses words).length = (longGapPairs words).length := by
    rw [hmap, List.length_map]
  refine ⟨hmap, ?_, ?_⟩
  · rw [hlen, longGapPairs, List.countP_eq_length_filter]
  · rw [hesitation_score_of, hlen, round2_min_halfint]

/-! ## Claims C4, C5, C10 — orchestrator runs -/

/-- C4, counterexample: the `except` handler writes the error marker into
the transcript field unconditionally — on an answer whose transcript is
already set, the claim says the marker is not written, but the code
overwrites the existing transcript. -/
theorem process_video_error_overwrites_transcript :
    ({ fresh_stub with transcript := some "earlier transcript" } : Answer).transcript =
      some "earlier transcript" ∧
    (process_video "q1" "t" "uploads/s/q1.wav" env_fail_emotion
        { fresh_stub with transcript := some "earlier transcript" }).transcript =
      some (error_marker "DeepFace crashed") ∧
    error_marker "DeepFace crashed" ≠ "earlier transcript" := by
  refine ⟨rfl, rfl, ?_⟩
  decide

/-- C4 (amended): any stage failure terminates the run with the single
error update — `processed := true` and the truncated error marker written
into the transcript unconditionally (overwriting any existing transcript)
— and `process_video` returns normally (no exception propagates). -/
theorem process_video_failure_containment (qid qtext ap : String) (env : PipelineEnv)
    (doc : Answer) (msg : String) (h : run_stages qid qtext env = Except.error msg) :
    process_video qid qtext ap env doc =
      { doc with processed := true, transcript := some (error_marker msg) } := by
  unfold process_video
  rw [h]

/-- C4 amended-claim witness at a concrete failing environment. -/
theorem process_video_failure_containment_witness :
    process_video "q1" "t" "uploads/s/q1.wav" env_fail_emotion fresh_stub =
      { fresh_stub with
          processed := true
          transcript := some (error_marker "DeepFace crashed") } :=
  process_video_failure_containment "q1" "t" "uploads/s/q1.wav" env_fail_emotion
    fresh_stub "DeepFace crashed" rfl

/-- C5, counterexample: there are no incremental per-stage writes.  In a
run where audio extraction and transcription completed and the emotion
stage failed, the claim says the audio path and transcript produced by the
completed stages are already persisted; in fact the answer document keeps
`audio_path = none`, keeps its empty word list, and its transcript is the
error marker, not the transcription. -/
theorem process_video_no_incremental_persistence :
    env_fail_emotion.extract_audio = Except.ok () ∧
    env_fail_emotion.transcribe = Except.ok some_whisper ∧
    run_stages "q1" "t" env_fail_emotion = Except.error "DeepFace crashed" ∧
    (process_video "q1" "t" "uploads/s/q1.wav" env_fail_emotion fresh_stub).audio_path =
      none ∧
    (process_video "q1" "t" "uploads/s/q1.wav" env_fail_emotion fresh_stub).word_timestamps =
      [] ∧
    (process_video "q1" "t" "uploads/s/q1.wav" env_fail_emotion fresh_stub).transcript ≠
      some some_whisper.transcript := by
  refine ⟨rfl, rfl, rfl, rfl, rfl, ?_⟩
  decide

/-- C5 (amended): the orchestrator accumulates stage fields in memory and
persists them in one single write at the end of a successful run; on a
failure nothing produced by any stage is persisted — the document keeps all
its prior analysis fields and receives only `processed := true` and the
error transcript marker. -/
theorem process_video_single_write (qid qtext ap : String) (env : PipelineEnv)
    (doc : Answer) :
    (∀ o, run_stages qid qtext env = Except.ok o →
        process_video qid qtext ap env doc = apply_success doc ap o) ∧
    (∀ msg, run_stages qid qtext env = Except.error msg →
        ((process_video qid qtext ap env doc).audio_path = doc.audio_path ∧
          (process_video qid qtext ap env doc).word_timestamps = doc.word_timestamps ∧
          (process_video qid qtext ap env doc).pause_count = doc.pause_count ∧
          (process_video qid qtext ap env doc).long_pauses = doc.long_pauses ∧
          (process_video qid qtext ap env doc).hesitation_score = doc.hesitation_score ∧
          (process_video qid qtext ap env doc).frame_emotions = doc.frame_emotions ∧
          (process_video qid qtext ap env doc).emotion_distribution =
            doc.emotion_distribution ∧
          (process_video qid qtext ap env doc).confidence_index = doc.confidence_index ∧
          (process_video qid qtext ap env doc).nervousness_score = doc.nervousness_score ∧
          (process_video qid qtext ap env doc).llm_evaluation = doc.llm_evaluation ∧
          (process_video qid qtext ap env doc).answer_final_score =
            doc.answer_final_score) ∧
        (process_video qid qtext ap env doc).processed = true ∧
        (process_video qid qtext ap env doc).transcript = some (error_marker msg)) := by
  constructor
  · intro o h
    unfold process_video
    rw [h]
  · intro msg h
    unfold process_video
    rw [h]
    exact ⟨⟨rfl, rfl, rfl, rfl, rfl, rfl, rfl, rfl, rfl, rfl, rfl⟩, rfl, rfl⟩

/-- C5 amended-claim witness at a concrete failing environment. -/
theorem process_video_single_write_witness :
    (process_video "q1" "t" "uploads/s/q1.wav" env_fail_emotion fresh_stub).audio_path =
      none ∧
    (process_video "q1" "t" "uploads/s/q1.wav" env_fail_emotion fresh_stub).processed =
      true := by
  have h :=
    (process_video_single_write "q1" "t" "uploads/s/q1.wav" env_fail_emotion
      fresh_stub).2 "DeepFace crashed" rfl
  exact ⟨h.1.1, h.2.1⟩

theorem run_stages_ok_shape (qid qtext : String) (env : PipelineEnv) (o : StageOutputs)
    (h : run_stages qid qtext env = Except.ok o) :
    o.answer_score =
      score_single_answer (temp_answer qid qtext o.whisper o.emotion o.llm_eval) := by
  unfold run_stages at h
  cases hA : env.extract_audio with
  | error e => rw [hA] at h; simp at h
  | ok u =>
      rw [hA] at h
      cases hW : env.transcribe with
      | error e => rw [hW] at h; simp at h
      | ok w =>
          rw [hW] at h
          cases hE : env.analyze_emotions with
          | error e => rw [hE] at h; simp at h
          | ok em =>
              rw [hE] at h
              simp only [Except.ok.injEq] at h
              subst h
              rfl

/-- C10: every run drives the answer to `processed = true` with exactly one
of two terminal shapes — on success the document becomes the single
accumulated update whose `answer_final_score` is `score_single_answer` of
the temporary answer built from the stage outputs, and on failure the
transcript begins with the "[ERROR: " marker. -/
theorem process_video_terminal_shapes (qid qtext ap : String) (env : PipelineEnv)
    (doc : Answer) :
    (process_video qid qtext ap env doc).processed = true ∧
    ((∃ o, run_stages qid qtext env = Except.ok o ∧
        process_video qid qtext ap env doc = apply_success doc ap o ∧
        (process_video qid qtext ap env doc).answer_final_score =
          score_single_answer (temp_answer qid qtext o.whisper o.emotion o.llm_eval)) ∨
      (∃ msg rest, run_stages qid qtext env = Except.error msg ∧
        (process_video qid qtext ap env doc).transcript = some ("[ERROR: " ++ rest))) := by
  cases hrs : run_stages qid qtext env with
  | ok o =>
      have hpv : process_video qid qtext ap env doc = apply_success doc ap o := by
        unfold process_video
        rw [hrs]
      constructor
      · rw [hpv]; rfl
      · left
        refine ⟨o, rfl, hpv, ?_⟩
        rw [hpv]
        show o.answer_score = _
        exact run_stages_ok_shape qid qtext env o hrs
  | error msg =>
      have hpv : process_video qid qtext ap env doc =
          { doc with processed := true, transcript := some (error_marker msg) } := by
        unfold process_video
        rw [hrs]
      constructor
      · rw [hpv]
      · right
        exact ⟨msg, take200 msg ++ "]", rfl, by rw [hpv]; rfl⟩

/-! ## Claim C8 — emotion distribution, confidence and nervousness -/

theorem sum_map_snd_mul (l : List (String × ℚ)) (c : ℚ) :
    (l.map fun p => p.2 * c).sum = (l.map Prod.snd).sum * c := by
  induction l with
  | nil => simp
  | cons p rest ih =>
      simp only [List.map_cons, List.sum_cons, ih]
      ring

theorem sum_round2_close (l : List ℚ) :
    |(l.map round2).sum - l.sum| ≤ (l.length : ℚ) * (1/200) := by
  induction l with
  | nil => simp
  | cons x rest ih =>
      simp only [List.map_cons, List.sum_cons, List.length_cons]
      have hx := round2_abs_sub_le x
      have step : |round2 x + (rest.map round2).sum - (x + rest.sum)| ≤
          |round2 x - x| + |(rest.map round2).sum - rest.sum| := by
        have heq : round2 x + (rest.map round2).sum - (x + rest.sum) =
            (round2 x - x) + ((rest.map round2).sum - rest.sum) := by ring
        rw [heq]
        exact abs_add _ _
      have hb : |round2 x - x| + |(rest.map round2).sum - rest.sum| ≤
          1/200 + (rest.length : ℚ) * (1/200) := add_le_add hx ih
      have hcast : ((rest.length + 1 : ℕ) : ℚ) * (1/200) =
          1/200 + (rest.length : ℚ) * (1/200) := by
        push_cast
        ring
      rw [hcast]
      exact le_trans step hb

theorem add_total_nonneg (m : List (String × ℚ)) (emo : String) (s : ℚ)
    (hm : ∀ p ∈ m, 0 ≤ p.2) (hs : 0 ≤ s) : ∀ p ∈ add_total m emo s, 0 ≤ p.2 := by
  induction m with
  | nil =>
      intro p hp
      simp only [add_total, List.mem_singleton] at hp
      subst hp
      exact hs
  | cons q rest ih =>
      obtain ⟨k, v⟩ := q
      intro p hp
      by_cases h : k = emo
      · simp only [add_total, if_pos h, List.mem_cons] at hp
        cases hp with
        | inl he =>
            subst he
            have hv : 0 ≤ v := hm (k, v) (List.mem_cons_self _ _)
            simp only
            linarith
        | inr he => exact hm p (List.mem_cons_of_mem _ he)
      · simp only [add_total, if_neg h, List.mem_cons] at hp
        cases hp with
        | inl he =>
            subst he
            exact hm (k, v) (List.mem_cons_self _ _)
        | inr he =>
            exact ih (fun r hr => hm r (List.mem_cons_of_mem _ hr)) p he

theorem scores_fold_nonneg (scores : List (String × ℚ)) :
    ∀ m : List (String × ℚ), (∀ p ∈ m, 0 ≤ p.2) → (∀ p ∈ scores, 0 ≤ p.2) →
      ∀ p ∈ scores.foldl (fun m2 p => add_total m2 p.1 p.2) m, 0 ≤ p.2 := by
  induction scores with
  | nil => intro m hm _ p hp; exact hm p hp
  | cons s rest ih =>
      intro m hm hs p hp
      simp only [List.foldl_cons] at hp
      refine ih (add_total m s.1 s.2) ?_ (fun r hr => hs r (List.mem_cons_of_mem _ hr)) p hp
      exact add_total_nonneg m s.1 s.2 hm (hs s (List.mem_cons_self _ _))

theorem accumulate_totals_nonneg (frames : List FrameAnalysis)
    (h : ∀ f ∈ frames, ∀ p ∈ f.emotion_scores, 0 ≤ p.2) :
    ∀ p ∈ accumulate_totals frames, 0 ≤ p.2 := by
  unfold accumulate_totals
  suffices hgen : ∀ m : List (String × ℚ), (∀ p ∈ m, 0 ≤ p.2) →
      ∀ p ∈ frames.foldl (fun m f => f.emotion_scores.foldl (fun m2 p => add_total m2 p.1 p.2) m) m,
        0 ≤ p.2 by
    exact hgen [] (by simp)
  induction frames with
  | nil => intro m hm p hp; exact hm p hp
  | cons f rest ih =>
      intro m hm p hp
      simp only [List.foldl_cons] at hp
      refine ih (fun g hg => h g (List.mem_cons_of_mem _ hg)) _ ?_ p hp
      exact scores_fold_nonneg f.emotion_scores m hm (h f (List.mem_cons_self _ _))

theorem dget_nonneg (m : List (String × ℚ)) (k : String)
    (hm : ∀ p ∈ m, 0 ≤ p.2) : 0 ≤ dget m k := by
  induction m with
  | nil => simp [dget, List.lookup]
  | cons q rest ih =>
      obtain ⟨a, b⟩ := q
      by_cases h : (k == a) = true
      · simp only [dget, List.lookup, h]
        exact hm (a, b) (List.mem_cons_self _ _)
      · simp only [dget, List.lookup, h]
        exact ih (fun r hr => hm r (List.mem_cons_of_mem _ hr))

theorem emotion_distribution_of_nonneg (totals : List (String × ℚ))
    (h : ∀ p ∈ totals, 0 ≤ p.2) (hT : 0 < (totals.map Prod.snd).sum) :
    ∀ p ∈ emotion_distribution_of totals, 0 ≤ p.2 := by
  intro p hp
  unfold emotion_distribution_of at hp
  simp only [List.mem_map] at hp
  obtain ⟨q, hq, he⟩ := hp
  subst he
  refine round2_nonneg ?_
  have hv : 0 ≤ q.2 := h q hq
  positivity

theorem emotion_distribution_of_sum (totals : List (String × ℚ))
    (hT : 0 < (totals.map Prod.snd).sum) :
    |((emotion_distribution_of totals).map Prod.snd).sum - 100| ≤
      ((emotion_distribution_of totals).length : ℚ) * (1/200) := by
  have hTne : (totals.map Prod.snd).sum ≠ 0 := ne_of_gt hT
  have hmap : (emotion_distribution_of totals).map Prod.snd =
      (totals.map fun p => p.2 / (totals.map Prod.snd).sum * 100).map round2 := by
    unfold emotion_distribution_of
    simp [List.map_map, Function.comp]
  have hsum : (totals.map fun p => p.2 / (totals.map Prod.snd).sum * 100).sum = 100 := by
    have hrw : (totals.map fun p => p.2 / (totals.map Prod.snd).sum * 100) =
        totals.map fun p => p.2 * (100 / (totals.map Prod.snd).sum) := by
      apply List.map_congr_left
      intro p _
      field_simp
    rw [hrw, sum_map_snd_mul]
    field_simp
  have hlen : (emotion_distribution_of totals).length = totals.length := by
    unfold emotion_distribution_of
    simp
  have hclose := sum_round2_close (totals.map fun p => p.2 / (totals.map Prod.snd).sum * 100)
  rw [hsum, List.length_map] at hclose
  rw [hmap, hlen]
  exact hclose

theorem round2_min_ten_bounds {x : ℚ} (hx : 0 ≤ x) :
    0 ≤ round2 (min x 10) ∧ round2 (min x 10) ≤ 10 := by
  constructor
  · exact round2_nonneg (le_min hx (by norm_num))
  · exact round2_le_of_le ⟨1000, by norm_num⟩ (min_le_right _ _)

/-- C8, counterexample: the code rounds the confidence index to 2 decimals;
the claimed unrounded value `min((happy + neutral)/100*10, 10)` is 1.234 on
this input while the code returns 1.23. -/
theorem confidence_index_rounding_counterexample :
    (analyze_frames frames_c8).confidence_index = 123/100 ∧
    min ((dget (analyze_frames frames_c8).emotion_distribution "happy" +
      dget (analyze_frames frames_c8).emotion_distribution "neutral") / 100 * 10) 10 =
      617/500 ∧
    (123/100 : ℚ) ≠ 617/500 := by
  have htot : accumulate_totals (frames_c8.filterMap id) =
      [("happy", 1234), ("angry", 8766)] := by
    simp [frames_c8, accumulate_totals, add_total]
  have hproj : (analyze_frames frames_c8).emotion_distribution =
      emotion_distribution_of (accumulate_totals (frames_c8.filterMap id)) ∧
      (analyze_frames frames_c8).confidence_index =
        confidence_index_of
          (emotion_distribution_of (accumulate_totals (frames_c8.filterMap id))) := by
    unfold analyze_frames
    rw [if_neg (by simp [frames_c8])]
    exact ⟨rfl, rfl⟩
  have hdist : (analyze_frames frames_c8).emotion_distribution =
      [("happy", 1234/100), ("angry", 8766/100)] := by
    rw [hproj.1, htot]
    unfold emotion_distribution_of
    simp only [List.map_cons, List.map_nil, List.sum_cons, List.sum_nil]
    norm_num [round2, roundHalfEven]
  refine ⟨?_, ?_, by norm_num⟩
  · rw [hproj.2, htot]
    unfold confidence_index_of
    have hd : emotion_distribution_of [("happy", 1234), ("angry", 8766)] =
        [("happy", 1234/100), ("angry", 8766/100)] := by
      rw [← htot, ← hproj.1, hdist]
    rw [hd]
    unfold dget
    simp [List.lookup]
    norm_num [round2, roundHalfEven]
  · rw [hdist]
    unfold dget
    simp [List.lookup]
    norm_num

/-- C8 (amended): with at least one analysed frame, non-negative DeepFace
scores and a positive total, the distribution percentages sum to 100 up to
the 2-decimal rounding error (at most length/200), the confidence and
nervousness indices equal the claimed formulas rounded to 2 decimals and
lie in [0, 10]; with zero analysed frames everything is empty/zero. -/
theorem analyze_frames_distribution_spec (frames : List (Option FrameAnalysis)) :
    (frames.filterMap id = [] →
      analyze_frames frames =
        { frame_emotions := []
          emotion_distribution := []
          confidence_index := 0
          nervousness_score := 0 }) ∧
    ((∀ f ∈ frames.filterMap id, ∀ p ∈ f.emotion_scores, 0 ≤ p.2) →
      0 < ((accumulate_totals (frames.filterMap id)).map Prod.snd).sum →
      |((analyze_frames frames).emotion_distribution.map Prod.snd).sum - 100| ≤
          ((analyze_frames frames).emotion_distribution.length : ℚ) * (1/200) ∧
        (analyze_frames frames).confidence_index =
          round2 (min ((dget (analyze_frames frames).emotion_distribution "happy" +
            dget (analyze_frames frames).emotion_distribution "neutral") / 100 * 10) 10) ∧
        (analyze_frames frames).nervousness_score =
          round2 (min ((dget (analyze_frames frames).emotion_distribution "fear" +
            dget (analyze_frames frames).emotion_distribution "sad" +
            dget (analyze_frames frames).emotion_distribution "angry") / 100 * 10) 10) ∧
        0 ≤ (analyze_frames frames).confidence_index ∧
        (analyze_frames frames).confidence_index ≤ 10 ∧
        0 ≤ (analyze_frames frames).nervousness_score ∧
        (analyze_frames frames).nervousness_score ≤ 10) := by
  constructor
  · intro h
    unfold analyze_frames
    rw [h]
    rfl
  · intro hnn hT
    have hne : frames.filterMap id ≠ [] := by
      intro hc
      rw [hc] at hT
      simp [accumulate_totals] at hT
    have hproj : (analyze_frames frames).emotion_distribution =
        emotion_distribution_of (accumulate_totals (frames.filterMap id)) ∧
        (analyze_frames frames).confidence_index =
          confidence_index_of
            (emotion_distribution_of (accumulate_totals (frames.filterMap id))) ∧
        (analyze_frames frames).nervousness_score =
          nervousness_score_of
            (emotion_distribution_of (accumulate_totals (frames.filterMap id))) := by
      unfold analyze_frames
      rw [if_neg (by simpa using hne)]
      exact ⟨rfl, rfl, rfl⟩
    obtain ⟨hd, hc, hv⟩ := hproj
    have htotnn := accumulate_totals_nonneg (frames.filterMap id) hnn
    have hdistnn :=
      emotion_distribution_of_nonneg (accumulate_totals (frames.filterMap id)) htotnn hT
    have hposc : 0 ≤ (dget (analyze_frames frames).emotion_distribution "happy" +
        dget (analyze_frames frames).emotion_distribution "neutral") / 100 * 10 := by
      rw [hd]
      have h1 := dget_nonneg _ "happy" hdistnn
      have h2 := dget_nonneg _ "neutral" hdistnn
      positivity
    have hposn : 0 ≤ (dget (analyze_frames frames).emotion_distribution "fear" +
        dget (analyze_frames frames).emotion_distribution "sad" +
        dget (analyze_frames frames).emotion_distribution "angry") / 100 * 10 := by
      rw [hd]
      have h1 := dget_nonneg _ "fear" hdistnn
      have h2 := dget_nonneg _ "sad" hdistnn
      have h3 := dget_nonneg _ "angry" hdistnn
      positivity
    have hcb := round2_min_ten_bounds hposc
    have hvb := round2_min_ten_bounds hposn
    have hceq : (analyze_frames frames).confidence_index =
        round2 (min ((dget (analyze_frames frames).emotion_distribution "happy" +
          dget (analyze_frames frames).emotion_distribution "neutral") / 100 * 10) 10) := by
      rw [hc, hd]
      rfl
    have hveq : (analyze_frames frames).nervousness_score =
        round2 (min ((dget (analyze_frames frames).emotion_distribution "fear" +
          dget (analyze_frames frames).emotion_distribution "sad" +
          dget (analyze_frames frames).emotion_distribution "angry") / 100 * 10) 10) := by
      rw [hv, hd]
      rfl
    refine ⟨?_, hceq, hveq, ?_, ?_, ?_, ?_⟩
    · rw [hd]
      exact emotion_distribution_of_sum _ hT
    · rw [hceq]; exact hcb.1
    · rw [hceq]; exact hcb.2
    · rw [hveq]; exact hvb.1
    · rw [hveq]; exact hvb.2

/-- C8 amended-claim witness: the hypotheses hold at the concrete frame
list and the indices are in range. -/
theorem analyze_frames_distribution_spec_witness :
    0 ≤ (analyze_frames frames_c8).confidence_index ∧
    (analyze_frames frames_c8).confidence_index ≤ 10 := by
  have h := (analyze_frames_distribution_spec frames_c8).2
    (by
      intro f hf p hp
      simp [frames_c8] at hf
      subst hf
      simp at hp
      rcases hp with rfl | rfl <;> norm_num)
    (by
      have htot : accumulate_totals (frames_c8.filterMap id) =
          [("happy", 1234), ("angry", 8766)] := by
        simp [frames_c8, accumulate_totals, add_total]
      rw [htot]
      norm_num)
  exact ⟨h.2.2.2.1, h.2.2.2.2.1⟩

end HireNetAI
